import Mathlib

/-!
Verification development for the xbase daemon's core logic.

Each namespace shallowly embeds one source module:

* `Xbase.Proto`  — src/proto/src/message.rs (message model, process-item
  classification, `log_*` producers).
* `Xbase.Daemon` — src/daemon/src/project/platform.rs (`Platform` parsing).
* `Xbase.Watch`  — src/src/watch/mod.rs (the `try_to_recompile` pre-pass and
  the dispatcher's reactor loop).
* `Xbase.Bcast`  — the broadcast message model used by
  src/src/broadcast/helpers.rs.
* `Xbase.Swift`  — src/src/project/swift.rs (`update_project_info`).

Stateful or IO-bound code is embedded by making the relevant environment
(command exit status, parse outcome, filesystem existence of a path) an
explicit input of the embedded function.
-/

namespace Xbase

/-- Model of Rust `str::to_lowercase` (adequate for the ASCII strings the
claims concern): lower-case every character. -/
def to_lower (s : String) : String := String.mk (s.data.map Char.toLower)

/-! ### Proto message model — src/proto/src/message.rs -/

namespace Proto

/-- Message level, src/proto/src/message.rs lines 101-115
(`Trace | Debug | Info | Warn | Error`). -/
inductive MessageLevel
  | trace
  | debug
  | info
  | warn
  | error
deriving DecidableEq

/-- Statusline state, src/proto/src/message.rs lines 80-93. -/
inductive StatuslineState
  | success
  | failure
  | processing
  | watching
  | running
deriving DecidableEq

/-- Client task, src/proto/src/message.rs lines 95-99: this revision of the
proto crate has the single variant `UpdateStatusline`. -/
inductive Task
  | updateStatusline (s : StatuslineState)
deriving DecidableEq

/-- Message, src/proto/src/message.rs lines 4-13. -/
inductive Message
  | notify (msg : String) (level : MessageLevel)
  | log (msg : String) (level : MessageLevel)
  | execute (t : Task)
deriving DecidableEq

/-- `Message::log_error`, src/proto/src/message.rs lines 44-49. -/
def Message.log_error (s : String) : Message := .log s .error

/-- `Message::log_info`, src/proto/src/message.rs lines 51-56: the source
constructs the message with `MessageLevel::Error`, not `Info`. -/
def Message.log_info (s : String) : Message := .log s .error

/-- `Message::log_warn`, src/proto/src/message.rs lines 58-63. -/
def Message.log_warn (s : String) : Message := .log s .warn

/-- Substring test on character lists: true iff `sub` occurs contiguously in
the second list. Model of Rust `str::contains` used at
src/proto/src/message.rs lines 122 and 127. -/
def listContainsSub (sub : List Char) : List Char → Bool
  | [] => sub.isEmpty
  | c :: cs => sub.isPrefixOf (c :: cs) || listContainsSub sub cs

/-- `s.contains(sub)` on Lean strings. -/
def contains_sub (s sub : String) : Bool := listContainsSub sub.data s.data

/-- Item of a child process's output stream, from the external
`process_stream` crate (a collaborator, not part of src/): a stdout line, a
stderr line, or the exit code carried as a string. -/
inductive ProcessItem
  | output (s : String)
  | error (s : String)
  | exit (code : String)
deriving DecidableEq

/-- `ProcessItem::is_success` of the external `process_stream` crate, per the
spec's "exit status is successful": defined for `Exit` items as the exit code
being `"0"`. -/
def ProcessItem.is_success : ProcessItem → Option Bool
  | .exit code => some (code == "0")
  | _ => none

/-- `impl From<ProcessItem> for Message`, src/proto/src/message.rs lines
117-158. In the `Exit` branch the source takes `is_success.unwrap()`, which
there equals `code == "0"`. -/
def Message.from_process_item (item : ProcessItem) : Message :=
  match item with
  | .output value =>
    if contains_sub (to_lower value) "error" then .log value .error
    else if contains_sub (to_lower value) "warn" then .log value .warn
    else .log value .info
  | .error value => .log value .error
  | .exit code =>
    if (ProcessItem.exit code).is_success.getD false then .log "Success" .info
    else .log ("Exit " ++ code) .error

end Proto

/-! ### Platform — src/daemon/src/project/platform.rs -/

namespace Daemon

/-- `Platform`, src/daemon/src/project/platform.rs lines 5-16. -/
inductive Platform
  | IOS
  | WatchOS
  | TvOS
  | MacOS
  | Unknown
deriving DecidableEq

/-- `Platform::from_sdk_root`, src/daemon/src/project/platform.rs lines
25-33: an exact-case `match` on the sdk-root string. -/
def Platform.from_sdk_root (sdk_root : String) : Platform :=
  if sdk_root = "iphoneos" then .IOS
  else if sdk_root = "macosx" then .MacOS
  else if sdk_root = "appletvos" then .TvOS
  else if sdk_root = "watchos" then .WatchOS
  else .Unknown

/-- `impl FromStr for Platform`, src/daemon/src/project/platform.rs lines
85-97: every arm, including the wildcard, returns `Ok`. -/
def Platform.from_str (s : String) : Except String Platform :=
  if s = "iOS" then .ok .IOS
  else if s = "watchOS" then .ok .WatchOS
  else if s = "tvOS" then .ok .TvOS
  else if s = "macOS" then .ok .MacOS
  else .ok .Unknown

/-- `impl ToString for Platform`, src/daemon/src/project/platform.rs lines
99-110. -/
def Platform.to_string : Platform → String
  | .IOS => "iOS"
  | .WatchOS => "watchOS"
  | .TvOS => "tvOS"
  | .MacOS => "macOS"
  | .Unknown => ""

/-- Model of Rust `str::split(sep)` on character lists: the list of segments
between occurrences of `sep`; always nonempty (the empty input yields one
empty segment). -/
def splitOnChar (sep : Char) : List Char → List (List Char)
  | [] => [[]]
  | c :: cs =>
    let rest := splitOnChar sep cs
    if c = sep then [] :: rest
    else (c :: rest.headD []) :: rest.tail

/-- `Platform::from_identifer`, src/daemon/src/project/platform.rs lines
34-44. The source computes `name.split("-").next().unwrap()`; `none` here
models the case in which that `unwrap` would fail (no first segment). -/
def Platform.from_identifer (identifer : String) : Option Platform :=
  let name := identifer.replace "com.apple.CoreSimulator.SimRuntime." ""
  match (splitOnChar '-' name.data).head? with
  | none => none
  | some platform_str =>
    match Platform.from_str (String.mk platform_str) with
    | .ok res => some res
    | .error _ => some .Unknown

end Daemon

/-! ### Watch service — src/src/watch/mod.rs -/

namespace Watch

/-- Modelled from the spec: the watch event module (`mod event` of
src/src/watch/mod.rs) is not among the sources; `EventKind` follows §3 of the
spec (`Create, Remove, Rename, ContentUpdate, Other`; `Other` never reaches
the dispatcher, §4.A). -/
inductive EventKind
  | create
  | remove
  | rename
  | contentUpdate
  | other
deriving DecidableEq

/-- Modelled from the spec: a normalized event per §3/§4.A, with the path
abstracted to its basename (`file_name()`) together with whether the path
exists on disk when the dispatcher inspects it (`event.path().exists()`),
and the debounce `seen` flag. -/
structure Event where
  kind : EventKind
  file_name : String
  path_exists : Bool
  seen : Bool
deriving DecidableEq

/-- Spec §4.A helper `is_create_event`. -/
def Event.is_create_event (e : Event) : Bool := e.kind == .create

/-- Spec §4.A helper `is_remove_event`. -/
def Event.is_remove_event (e : Event) : Bool := e.kind == .remove

/-- Spec §4.A helper `is_rename_event`. -/
def Event.is_rename_event (e : Event) : Bool := e.kind == .rename

/-- Spec §4.A helper `is_content_update_event`. -/
def Event.is_content_update_event (e : Event) : Bool := e.kind == .contentUpdate

/-- Spec §4.A helper `is_seen`. -/
def Event.is_seen (e : Event) : Bool := e.seen

/-- The recompile condition of `try_to_recompile`, src/src/watch/mod.rs lines
58-61, with Rust's `&&`-over-`||` precedence:
`is_create || is_remove || (is_content_update && file_name == "project.yml")
|| (is_rename && !(path.exists() || is_seen))`. -/
def recompile (event : Event) : Bool :=
  event.is_create_event || event.is_remove_event
    || (event.is_content_update_event && event.file_name == "project.yml")
    || (event.is_rename_event && !(event.path_exists || event.is_seen))

/-- The regeneration condition as the specification words it (§4.E step 3):
the project-definition file is `project.yml` for Xcode projects and
`Package.swift` for Swift packages. Written from the spec's words, to be
compared with `recompile`, which is written from the source. -/
def spec_recompile (swift_package : Bool) (event : Event) : Bool :=
  let definition_file := if swift_package then "Package.swift" else "project.yml"
  event.is_create_event || event.is_remove_event
    || (event.is_content_update_event && event.file_name == definition_file)
    || (event.is_rename_event && !event.path_exists && !event.seen)

/-- A reactor of the `Watchable` trait, src/src/watch/mod.rs lines 34-46:
its two pure predicates over the daemon state and the event. The acting
operations `trigger`/`discard` are recorded in the dispatch trace instead of
being modelled as state transformers. -/
structure Reactor (σ : Type) where
  should_discard : σ → Event → Bool
  should_trigger : σ → Event → Bool

/-- One recorded reactor invocation of the dispatcher loop: `discard k` when
listener `k`'s `discard` runs, `check_trigger k` when its `should_trigger` is
evaluated, `trigger k` when its `trigger` runs. -/
inductive Action
  | discard (key : String)
  | check_trigger (key : String)
  | trigger (key : String)
deriving DecidableEq

/-- The listener key an action concerns. -/
def Action.key : Action → String
  | .discard k => k
  | .check_trigger k => k
  | .trigger k => k

/-- The reactor loop of the dispatcher, src/src/watch/mod.rs lines 121-132:
for each `(key, listener)` pair, if `should_discard` holds run `discard` and
queue the key for removal; otherwise evaluate `should_trigger` and, if it
holds, run `trigger`. Returns the invocation trace and the queued `discards`.
The listener list stands for the pairs of the `HashMap` in its iteration
order. -/
def run_listeners {σ : Type} (st : σ) (e : Event) :
    List (String × Reactor σ) → List Action × List String
  | [] => ([], [])
  | (k, r) :: rest =>
    if r.should_discard st e then
      (.discard k :: (run_listeners st e rest).1, k :: (run_listeners st e rest).2)
    else if r.should_trigger st e then
      (.check_trigger k :: .trigger k :: (run_listeners st e rest).1,
        (run_listeners st e rest).2)
    else
      (.check_trigger k :: (run_listeners st e rest).1, (run_listeners st e rest).2)

/-- Processing of one event by the dispatcher, src/src/watch/mod.rs lines
121-140: run the reactor loop, then remove every queued key from the listener
set (the `discards` vector is cleared afterwards, so it is fresh per event).
Returns the remaining listeners and the invocation trace. -/
def process_event {σ : Type} (st : σ) (e : Event) (ls : List (String × Reactor σ)) :
    List (String × Reactor σ) × List Action :=
  (ls.filter (fun p => decide (p.1 ∉ (run_listeners st e ls).2)),
    (run_listeners st e ls).1)

/-- A reactor whose `should_discard` is constantly true, for concrete
evaluation of the dispatcher model. -/
def demo_reactor : Reactor Unit := ⟨fun _ _ => true, fun _ _ => false⟩

/-- A concrete Remove event. -/
def demo_event : Event := ⟨.remove, "main.swift", false, false⟩

end Watch

/-! ### Broadcast message model — src/src/broadcast/helpers.rs -/

namespace Bcast

/-- Modelled from the spec: the broadcast module (src/src/broadcast/mod.rs)
that defines the `MessageLevel` imported by src/src/broadcast/helpers.rs via
`use super::…` is not among the sources; §3 of the spec lists
`Trace, Debug, Info, Warn, Error, Success`, matching helpers.rs's use of
`MessageLevel::Success` (line 40). The proto crate's copy embedded above is
an older revision without `Success`. -/
inductive MessageLevel
  | trace
  | debug
  | info
  | warn
  | error
  | success
deriving DecidableEq

/-- Statusline state as used by helpers.rs (same five variants as the proto
revision). -/
inductive StatuslineState
  | success
  | failure
  | processing
  | watching
  | running
deriving DecidableEq

/-- Modelled from the spec: the `Task` union imported by
src/src/broadcast/helpers.rs from `super` is not among the sources; §3 of
the spec gives
`Task ∈ \x7b UpdateStatusline(StatuslineState), OpenLogger, ReloadLspServer \x7d`,
matching helpers.rs's `Task::OpenLogger` (line 101) and
`Task::ReloadLspServer` (line 105). -/
inductive Task
  | updateStatusline (s : StatuslineState)
  | openLogger
  | reloadLspServer
deriving DecidableEq

/-- Modelled from the spec: the broadcast `Message` union of §3 (`Notify`,
`Log`, `Execute`). -/
inductive Message
  | notify (msg : String) (level : MessageLevel)
  | log (msg : String) (level : MessageLevel)
  | execute (t : Task)
deriving DecidableEq

/-- The message `Broadcast::success` sends, src/src/broadcast/helpers.rs
lines 35-43: `Notify` with `MessageLevel::Success`. -/
def success_message (msg : String) : Message := .notify msg .success

/-- The message `Broadcast::open_logger` sends, src/src/broadcast/helpers.rs
lines 100-102. -/
def open_logger_message : Message := .execute .openLogger

/-- The message `Broadcast::reload_lsp_server` sends,
src/src/broadcast/helpers.rs lines 104-106. -/
def reload_lsp_server_message : Message := .execute .reloadLspServer

/-- The message `Broadcast::update_statusline` sends,
src/src/broadcast/helpers.rs lines 94-98. -/
def update_statusline_message (s : StatuslineState) : Message :=
  .execute (.updateStatusline s)

end Bcast

/-! ### Swift package metadata — src/src/project/swift.rs -/

namespace Swift

/-- A JSON value, as far as `update_project_info` inspects one
(`serde_json::Value` restricted to the accessors used: `as_str`, `as_array`,
`as_object`). -/
inductive JVal
  | str (s : String)
  | arr (xs : List JVal)
  | obj (fields : List (String × JVal))
  | other

/-- `TargetInfo` as populated at src/src/project/swift.rs lines 226-233. -/
structure TargetInfo where
  platform : String
  configurations : List String

/-- The daemon error kinds `update_project_info` can produce:
`Error::DefinitionParsing` (src/src/project/swift.rs lines 195 and 202) and
the `anyhow!` message errors (lines 210 and 215). -/
inductive Err
  | definitionParsing (s : String)
  | anyhow (s : String)

/-- `Map::get` on the field list of a JSON object. -/
def jlookup (m : List (String × JVal)) (key : String) : Option JVal :=
  (m.find? (fun p => p.1 == key)).map (fun p => p.2)

/-- `Value::as_str`. -/
def JVal.as_str : JVal → Option String
  | .str s => some s
  | _ => none

/-- `Value::as_array`. -/
def JVal.as_array : JVal → Option (List JVal)
  | .arr xs => some xs
  | _ => none

/-- `Value::as_object`. -/
def JVal.as_object : JVal → Option (List (String × JVal))
  | .obj fs => some fs
  | _ => none

/-- The per-target closure of src/src/project/swift.rs lines 217-237: keep a
target entry when it is an object with a string `name` field and its `type`
field is not `"test"`; the platform string is
`PBXTargetPlatform::MacOS.to_string()` of the external xcodeproj crate,
`"macOS"`, and the configurations are hard-coded to `["Debug"]`. -/
def target_entry (v : JVal) : Option (String × TargetInfo) :=
  v.as_object.bind (fun target_info =>
    ((jlookup target_info "name").bind JVal.as_str).bind (fun name =>
      if (((jlookup target_info "type").bind JVal.as_str).map
            (fun s => s == "test")).getD false
      then none
      else some (name, ⟨"macOS", ["Debug"]⟩)))

/-- src/src/project/swift.rs lines 197-200: the stderr bytes split on
newlines and collected back into one string (newlines removed). -/
def join_lines (s : String) : String := String.join (s.splitOn "\n")

/-- `SwiftProject::update_project_info`, src/src/project/swift.rs lines
179-241, embedded over the outcome of the `swift package dump-package`
command: `status_success` is `output.status.success()`, `parsed` the outcome
of `serde_json::from_slice::<Map<String, Value>>(&output.stdout)` (`.error`
carrying the serde error message), `stderr` the decoded stderr. Returns the
`(name, targets)` the method stores, or the error it returns. -/
def update_project_info (status_success : Bool)
    (parsed : Except String (List (String × JVal))) (stderr : String) :
    Except Err (String × List (String × TargetInfo)) :=
  if status_success then
    match parsed with
    | .error e => .error (.definitionParsing e)
    | .ok map =>
      match (jlookup map "name").bind JVal.as_str with
      | none => .error (.anyhow "expected package name field is missing!")
      | some name =>
        match (jlookup map "targets").bind JVal.as_array with
        | none => .error (.anyhow "expected package target field is missing!")
        | some targets => .ok (name, targets.filterMap target_entry)
  else .error (.definitionParsing (join_lines stderr))

end Swift

end Xbase

/-!
## Theorems
-/

namespace Xbase

/-- Helper: `splitOnChar` never returns the empty list, so the first segment
of a split always exists. -/
theorem daemon_splitOnChar_ne_nil (sep : Char) (l : List Char) :
    Daemon.splitOnChar sep l ≠ [] := by
  cases l with
  | nil => simp [Daemon.splitOnChar]
  | cons c cs =>
    simp only [Daemon.splitOnChar]
    split <;> simp

/-- C3: a stdout line containing `"error"` (case-insensitive) yields a Log
with level Error; otherwise one containing `"warn"` yields level Warn;
otherwise level Info; every stderr line yields level Error; a successful
exit yields `Log "Success" Info`; an unsuccessful exit with code `c` yields
`Log ("Exit " ++ c) Error`. -/
theorem c3_process_item_classification (s code : String) :
    (Proto.contains_sub (to_lower s) "error" = true →
      Proto.Message.from_process_item (.output s) = .log s .error)
    ∧ (Proto.contains_sub (to_lower s) "error" = false →
        Proto.contains_sub (to_lower s) "warn" = true →
        Proto.Message.from_process_item (.output s) = .log s .warn)
    ∧ (Proto.contains_sub (to_lower s) "error" = false →
        Proto.contains_sub (to_lower s) "warn" = false →
        Proto.Message.from_process_item (.output s) = .log s .info)
    ∧ Proto.Message.from_process_item (.error s) = .log s .error
    ∧ (code = "0" →
        Proto.Message.from_process_item (.exit code) = .log "Success" .info)
    ∧ (code ≠ "0" →
        Proto.Message.from_process_item (.exit code) =
          .log ("Exit " ++ code) .error) := by
  refine ⟨?_, ?_, ?_, rfl, ?_, ?_⟩
  · intro h
    simp [Proto.Message.from_process_item, h]
  · intro h1 h2
    simp [Proto.Message.from_process_item, h1, h2]
  · intro h1 h2
    simp [Proto.Message.from_process_item, h1, h2]
  · intro h
    subst h
    rfl
  · intro h
    have hb : (code == "0") = false := beq_eq_false_iff_ne.mpr h
    simp [Proto.Message.from_process_item, Proto.ProcessItem.is_success, hb]

/-- Witness for C3 at the spec's scenario-6 inputs. -/
theorem c3_process_item_classification_witness :
    Proto.contains_sub (to_lower "fatal error: x") "error" = true
    ∧ Proto.Message.from_process_item (.output "fatal error: x") =
        .log "fatal error: x" .error
    ∧ Proto.Message.from_process_item (.error "all good") = .log "all good" .error
    ∧ "2" ≠ "0"
    ∧ Proto.Message.from_process_item (.exit "2") = .log "Exit 2" .error := by
  have h := c3_process_item_classification "fatal error: x" "2"
  have h2 := c3_process_item_classification "all good" "2"
  exact ⟨by decide, h.1 (by decide), h2.2.2.2.1, by decide,
    h.2.2.2.2.2 (by decide)⟩

/-- C4: evaluation of the source's `Message::log_info` at `"hello"`: it
produces level Error, not the level Info the specification requires (the
spec marks this as a source bug in §9(b)). -/
theorem c4_log_info_level :
    Proto.Message.log_info "hello" = Proto.Message.log "hello" .error
    ∧ Proto.Message.log_info "hello" ≠ Proto.Message.log "hello" .info := by
  decide

/-- C5: for every platform other than `Unknown`, `from_str` inverts
`to_string`. -/
theorem c5_platform_roundtrip (p : Daemon.Platform)
    (h : p ≠ Daemon.Platform.Unknown) :
    Daemon.Platform.from_str (Daemon.Platform.to_string p) = .ok p := by
  cases p
  · rfl
  · rfl
  · rfl
  · rfl
  · exact absurd rfl h

/-- Witness for C5 at `IOS`. -/
theorem c5_platform_roundtrip_witness :
    Daemon.Platform.from_str (Daemon.Platform.to_string Daemon.Platform.IOS) =
      .ok Daemon.Platform.IOS :=
  c5_platform_roundtrip Daemon.Platform.IOS (by decide)

/-- C6 (amended): `from_sdk_root` matches the four sdk-root strings exactly
(lower case only) and maps every other string, other casings included, to
`Unknown`. -/
theorem c6_from_sdk_root_exact (s : String)
    (h1 : s ≠ "iphoneos") (h2 : s ≠ "macosx")
    (h3 : s ≠ "appletvos") (h4 : s ≠ "watchos") :
    Daemon.Platform.from_sdk_root s = Daemon.Platform.Unknown
    ∧ Daemon.Platform.from_sdk_root "iphoneos" = Daemon.Platform.IOS
    ∧ Daemon.Platform.from_sdk_root "macosx" = Daemon.Platform.MacOS
    ∧ Daemon.Platform.from_sdk_root "appletvos" = Daemon.Platform.TvOS
    ∧ Daemon.Platform.from_sdk_root "watchos" = Daemon.Platform.WatchOS := by
  refine ⟨?_, rfl, rfl, rfl, rfl⟩
  simp [Daemon.Platform.from_sdk_root, h1, h2, h3, h4]

/-- Witness for C6 (amended) at the upper-case string `"IPHONEOS"`. -/
theorem c6_from_sdk_root_exact_witness :
    Daemon.Platform.from_sdk_root "IPHONEOS" = Daemon.Platform.Unknown
    ∧ Daemon.Platform.from_sdk_root "iphoneos" = Daemon.Platform.IOS
    ∧ Daemon.Platform.from_sdk_root "macosx" = Daemon.Platform.MacOS
    ∧ Daemon.Platform.from_sdk_root "appletvos" = Daemon.Platform.TvOS
    ∧ Daemon.Platform.from_sdk_root "watchos" = Daemon.Platform.WatchOS :=
  c6_from_sdk_root_exact "IPHONEOS" (by decide) (by decide) (by decide) (by decide)

/-- Counterexample to C6 as stated: `"IPHONEOS"` is a casing of
`"iphoneos"`, yet `from_sdk_root` maps it to `Unknown`, not `IOS` — the
mapping is not case-insensitive. -/
theorem c6_case_insensitive_counterexample :
    to_lower "IPHONEOS" = "iphoneos"
    ∧ Daemon.Platform.from_sdk_root "IPHONEOS" = Daemon.Platform.Unknown
    ∧ Daemon.Platform.Unknown ≠ Daemon.Platform.IOS := by
  decide

/-- C10: `Platform::from_str` is total — it returns `Ok` on every input — and
consequently `from_identifer` never reaches its error branch nor fails on the
first split segment: it returns a platform for every input string. -/
theorem c10_from_str_total (s : String) :
    (∃ p, Daemon.Platform.from_str s = .ok p)
    ∧ (∃ p, Daemon.Platform.from_identifer s = some p) := by
  constructor
  · unfold Daemon.Platform.from_str
    split_ifs <;> exact ⟨_, rfl⟩
  · have hne := daemon_splitOnChar_ne_nil '-'
      (s.replace "com.apple.CoreSimulator.SimRuntime." "").data
    cases hsp : Daemon.splitOnChar '-'
        (s.replace "com.apple.CoreSimulator.SimRuntime." "").data with
    | nil => exact absurd hsp hne
    | cons a t =>
      cases hfs : Daemon.Platform.from_str (String.mk a) with
      | ok p =>
        exact ⟨p, by simp [Daemon.Platform.from_identifer, hsp, hfs]⟩
      | error e =>
        exact ⟨.Unknown, by simp [Daemon.Platform.from_identifer, hsp, hfs]⟩

/-- Counterexample to C1 as stated: for a ContentUpdate on `Package.swift`
(target path exists, not seen), the claim's condition holds for a Swift
package, yet the dispatcher's recompile condition of `try_to_recompile` is
false — the source compares the file name against `project.yml` only. -/
theorem c1_package_swift_counterexample :
    Watch.spec_recompile true ⟨.contentUpdate, "Package.swift", true, false⟩ = true
    ∧ Watch.recompile ⟨.contentUpdate, "Package.swift", true, false⟩ = false := by
  decide

/-- C1 (amended): the regeneration pre-pass fires iff the event is a Create,
a Remove, a ContentUpdate on `project.yml`, or a Rename whose target path
does not exist and whose seen flag is false; a ContentUpdate on
`Package.swift` does not fire it. -/
theorem c1_recompile_characterization (e : Watch.Event) :
    Watch.recompile e = true ↔
      (e.kind = .create ∨ e.kind = .remove
        ∨ (e.kind = .contentUpdate ∧ e.file_name = "project.yml")
        ∨ (e.kind = .rename ∧ e.path_exists = false ∧ e.seen = false)) := by
  obtain ⟨k, fn, pe, sn⟩ := e
  cases k <;> cases pe <;> cases sn <;>
    simp [Watch.recompile, Watch.Event.is_create_event, Watch.Event.is_remove_event,
      Watch.Event.is_rename_event, Watch.Event.is_content_update_event,
      Watch.Event.is_seen]

/-- C7: the broadcast `Task` union has exactly the three variants
`UpdateStatusline`, `OpenLogger`, `ReloadLspServer`; the `open_logger` and
`reload_lsp_server` producers send the corresponding `Execute` messages; and
the `success` producer sends a `Notify` with the `Success` message level. -/
theorem c7_task_variants :
    (∀ t : Bcast.Task, (∃ s, t = .updateStatusline s)
        ∨ t = .openLogger ∨ t = .reloadLspServer)
    ∧ Bcast.Task.openLogger ≠ Bcast.Task.reloadLspServer
    ∧ (∀ s, Bcast.Task.updateStatusline s ≠ .openLogger
          ∧ Bcast.Task.updateStatusline s ≠ .reloadLspServer)
    ∧ Bcast.open_logger_message = .execute .openLogger
    ∧ Bcast.reload_lsp_server_message = .execute .reloadLspServer
    ∧ (∀ msg, Bcast.success_message msg = .notify msg .success) := by
  refine ⟨?_, by decide, ?_, rfl, rfl, fun _ => rfl⟩
  · intro t
    cases t with
    | updateStatusline s => exact Or.inl ⟨s, rfl⟩
    | openLogger => exact Or.inr (Or.inl rfl)
    | reloadLspServer => exact Or.inr (Or.inr rfl)
  · intro s
    exact ⟨fun h => Bcast.Task.noConfusion h, fun h => Bcast.Task.noConfusion h⟩

/-- C9: whenever the `swift package dump-package` step exits unsuccessfully,
or its stdout fails to parse as a JSON map, `update_project_info` returns a
`DefinitionParsing` error. -/
theorem c9_definition_parsing (status_success : Bool)
    (parsed : Except String (List (String × Swift.JVal))) (stderr : String)
    (h : status_success = false ∨ ∃ e, parsed = .error e) :
    ∃ s, Swift.update_project_info status_success parsed stderr =
      .error (.definitionParsing s) := by
  rcases h with h | ⟨e, he⟩
  · subst h
    exact ⟨Swift.join_lines stderr, rfl⟩
  · subst he
    cases status_success
    · exact ⟨Swift.join_lines stderr, rfl⟩
    · exact ⟨e, rfl⟩

/-- Witness for C9: a failed command, and an unparsable stdout. -/
theorem c9_definition_parsing_witness :
    (∃ s, Swift.update_project_info false (.ok []) "boom" =
      .error (.definitionParsing s))
    ∧ (∃ s, Swift.update_project_info true (.error "bad json") "" =
      .error (.definitionParsing s)) :=
  ⟨c9_definition_parsing false (.ok []) "boom" (Or.inl rfl),
    c9_definition_parsing true (.error "bad json") "" (Or.inr ⟨"bad json", rfl⟩)⟩

/-- Helper: every action recorded by the reactor loop concerns a key of the
listener list. -/
theorem watch_action_key_mem {σ : Type} (st : σ) (e : Watch.Event)
    (ls : List (String × Watch.Reactor σ)) :
    ∀ a ∈ (Watch.run_listeners st e ls).1, a.key ∈ ls.map Prod.fst := by
  induction ls with
  | nil =>
    intro a ha
    simp [Watch.run_listeners] at ha
  | cons p rest ih =>
    obtain ⟨k, r⟩ := p
    intro a ha
    simp only [List.map_cons, List.mem_cons]
    cases hd : r.should_discard st e with
    | true =>
      simp [Watch.run_listeners, hd] at ha
      rcases ha with h | h
      · subst h
        exact Or.inl rfl
      · exact Or.inr (ih a h)
    | false =>
      cases ht : r.should_trigger st e with
      | true =>
        simp [Watch.run_listeners, hd, ht] at ha
        rcases ha with h | h | h
        · subst h
          exact Or.inl rfl
        · subst h
          exact Or.inl rfl
        · exact Or.inr (ih a h)
      | false =>
        simp [Watch.run_listeners, hd, ht] at ha
        rcases ha with h | h
        · subst h
          exact Or.inl rfl
        · exact Or.inr (ih a h)

/-- Helper: a listener whose `should_discard` holds has its `discard` run and
its key queued for removal. -/
theorem watch_discard_recorded {σ : Type} (st : σ) (e : Watch.Event)
    (ls : List (String × Watch.Reactor σ)) (k : String) (r : Watch.Reactor σ)
    (hmem : (k, r) ∈ ls) (hdisc : r.should_discard st e = true) :
    Watch.Action.discard k ∈ (Watch.run_listeners st e ls).1
    ∧ k ∈ (Watch.run_listeners st e ls).2 := by
  induction ls with
  | nil => simp at hmem
  | cons p rest ih =>
    obtain ⟨k0, r0⟩ := p
    rcases List.mem_cons.mp hmem with h | h
    · injection h with h1 h2
      subst h1
      subst h2
      simp [Watch.run_listeners, hdisc]
    · obtain ⟨ih1, ih2⟩ := ih h
      cases hd0 : r0.should_discard st e with
      | true =>
        simp only [Watch.run_listeners, hd0, if_pos]
        exact ⟨List.mem_cons_of_mem _ ih1, List.mem_cons_of_mem _ ih2⟩
      | false =>
        cases ht0 : r0.should_trigger st e with
        | true =>
          simp [Watch.run_listeners, hd0, ht0]
          exact ⟨ih1, ih2⟩
        | false =>
          simp [Watch.run_listeners, hd0, ht0]
          exact ⟨ih1, ih2⟩

/-- Helper: for a listener whose `should_discard` holds, neither
`should_trigger` nor `trigger` is invoked during the loop (keys unique). -/
theorem watch_no_trigger_of_discard {σ : Type} (st : σ) (e : Watch.Event)
    (ls : List (String × Watch.Reactor σ)) (k : String) (r : Watch.Reactor σ)
    (hnodup : (ls.map Prod.fst).Nodup) (hmem : (k, r) ∈ ls)
    (hdisc : r.should_discard st e = true) :
    Watch.Action.check_trigger k ∉ (Watch.run_listeners st e ls).1
    ∧ Watch.Action.trigger k ∉ (Watch.run_listeners st e ls).1 := by
  induction ls with
  | nil => simp at hmem
  | cons p rest ih =>
    obtain ⟨k0, r0⟩ := p
    simp only [List.map_cons, List.nodup_cons] at hnodup
    obtain ⟨hk0, hnd⟩ := hnodup
    rcases List.mem_cons.mp hmem with h | h
    · injection h with h1 h2
      subst h1
      subst h2
      constructor
      · intro hc
        simp [Watch.run_listeners, hdisc] at hc
        have := watch_action_key_mem st e rest _ hc
        simp only [Watch.Action.key] at this
        exact hk0 this
      · intro hc
        simp [Watch.run_listeners, hdisc] at hc
        have := watch_action_key_mem st e rest _ hc
        simp only [Watch.Action.key] at this
        exact hk0 this
    · have hkmem : k ∈ rest.map Prod.fst := List.mem_map_of_mem Prod.fst h
      have hkne : k ≠ k0 := fun hkk => hk0 (hkk ▸ hkmem)
      obtain ⟨ih1, ih2⟩ := ih hnd h
      cases hd0 : r0.should_discard st e with
      | true =>
        constructor
        · intro hc
          simp [Watch.run_listeners, hd0] at hc
          exact ih1 hc
        · intro hc
          simp [Watch.run_listeners, hd0] at hc
          exact ih2 hc
      | false =>
        cases ht0 : r0.should_trigger st e with
        | true =>
          constructor
          · intro hc
            simp [Watch.run_listeners, hd0, ht0] at hc
            rcases hc with hc | hc
            · exact hkne hc
            · exact ih1 hc
          · intro hc
            simp [Watch.run_listeners, hd0, ht0] at hc
            rcases hc with hc | hc
            · exact hkne hc
            · exact ih2 hc
        | false =>
          constructor
          · intro hc
            simp [Watch.run_listeners, hd0, ht0] at hc
            rcases hc with hc | hc
            · exact hkne hc
            · exact ih1 hc
          · intro hc
            simp [Watch.run_listeners, hd0, ht0] at hc
            exact ih2 hc

/-- C2: for every dispatched event and every reactor of the set whose
`should_discard` holds on it: its `discard` runs, its `should_trigger` and
`trigger` are not invoked, its key is removed from the listener set before
the next event, and processing any subsequent event on the resulting set
invokes that reactor in no way. -/
theorem c2_discard_semantics (σ : Type) (st : σ) (e : Watch.Event)
    (ls : List (String × Watch.Reactor σ)) (k : String) (r : Watch.Reactor σ)
    (hnodup : (ls.map Prod.fst).Nodup)
    (hmem : (k, r) ∈ ls)
    (hdisc : r.should_discard st e = true) :
    Watch.Action.discard k ∈ (Watch.process_event st e ls).2
    ∧ Watch.Action.check_trigger k ∉ (Watch.process_event st e ls).2
    ∧ Watch.Action.trigger k ∉ (Watch.process_event st e ls).2
    ∧ k ∉ (Watch.process_event st e ls).1.map Prod.fst
    ∧ ∀ (st2 : σ) (e2 : Watch.Event),
        (Watch.process_event st2 e2 (Watch.process_event st e ls).1).2.filter
          (fun a => a.key == k) = [] := by
  obtain ⟨hact, hqueue⟩ := watch_discard_recorded st e ls k r hmem hdisc
  obtain ⟨hnc, hnt⟩ := watch_no_trigger_of_discard st e ls k r hnodup hmem hdisc
  have hremoved : k ∉ (Watch.process_event st e ls).1.map Prod.fst := by
    intro hk
    simp only [Watch.process_event, List.mem_map] at hk
    obtain ⟨p, hp, hpk⟩ := hk
    have hfilter := (List.mem_filter.mp hp).2
    rw [hpk] at hfilter
    exact (of_decide_eq_true hfilter) hqueue
  refine ⟨hact, hnc, hnt, hremoved, ?_⟩
  intro st2 e2
  apply List.filter_eq_nil_iff.mpr
  intro a ha
  have hkey := watch_action_key_mem st2 e2 (Watch.process_event st e ls).1 a ha
  intro hbeq
  rw [eq_of_beq hbeq] at hkey
  exact hremoved hkey

/-- Witness for C2: a single always-discarding reactor under key `"run"`,
hit by a Remove event. -/
theorem c2_discard_semantics_witness :
    Watch.Action.discard "run" ∈
      (Watch.process_event () Watch.demo_event [("run", Watch.demo_reactor)]).2
    ∧ Watch.Action.check_trigger "run" ∉
      (Watch.process_event () Watch.demo_event [("run", Watch.demo_reactor)]).2
    ∧ Watch.Action.trigger "run" ∉
      (Watch.process_event () Watch.demo_event [("run", Watch.demo_reactor)]).2
    ∧ "run" ∉ (Watch.process_event () Watch.demo_event
        [("run", Watch.demo_reactor)]).1.map Prod.fst
    ∧ (Watch.process_event () Watch.demo_event
        (Watch.process_event () Watch.demo_event
          [("run", Watch.demo_reactor)]).1).2.filter
        (fun a => a.key == "run") = [] := by
  have h := c2_discard_semantics Unit () Watch.demo_event
    [("run", Watch.demo_reactor)] "run" Watch.demo_reactor
    (by simp) (by simp) rfl
  exact ⟨h.1, h.2.1, h.2.2.1, h.2.2.2.1, h.2.2.2.2 () Watch.demo_event⟩

end Xbase
